import Mathlib

/-!
# Verification of the ecommerce dashboard's filter-aggregate-personalize pipeline

Shallow embedding of the core of `app.py`: the dataframe is a `List Row`,
nullable cells are `Option`, currency amounts are `Rat` (pandas float64 is
modelled by exact rationals; NaN results of aggregations are modelled by
`Option.none`).
-/

namespace Dashboard

/-- One record of the loaded dataframe.  Only the columns the pipeline reads
are embedded.  Every cell is `Option`-valued because a CSV cell can be null
(pandas NaN); a null amount is a NaN float.  Note the two distinct category
columns (`Purchase_Category` for the dashboard, `Product_Category` for the
personalization flow) and the personalization-flow frequency column
`Purchase_Frequency`, exactly as in the source. -/
structure Row where
  age : Option Int
  gender : Option String
  income_Level : Option String
  purchase_Channel : Option String
  purchase_Category : Option String
  product_Category : Option String
  purchase_Amount : Option Rat
  purchase_Frequency : Option Rat
deriving Repr, DecidableEq

/-- The four sidebar multiselect results (`selected_channel`,
`selected_category`, `selected_gender`, `selected_income` in app.py).  Each
is the list of values the user ticked; multiselect options are non-null
strings. -/
structure Selection where
  channel : List String
  category : List String
  gender : List String
  income : List String
deriving Repr, DecidableEq

/-- Pandas `series.isin(sel)` on one cell: a null cell (pandas NaN) is never a member
of a list of selected strings. -/
def cellIsin (v : Option String) (sel : List String) : Bool :=
  match v with
  | none => false
  | some s => sel.contains s

/-- app.py lines 112-121: start from a copy of `df`, then apply one
`isin` filter per attribute, but only when the selected list is non-empty
(Python truthiness of the list). -/
def filtered_df (t : List Row) (sel : Selection) : List Row :=
  let t := if sel.channel.isEmpty then t else
    t.filter (fun r => cellIsin r.purchase_Channel sel.channel)
  let t := if sel.category.isEmpty then t else
    t.filter (fun r => cellIsin r.purchase_Category sel.category)
  let t := if sel.gender.isEmpty then t else
    t.filter (fun r => cellIsin r.gender sel.gender)
  if sel.income.isEmpty then t else
    t.filter (fun r => cellIsin r.income_Level sel.income)

/-- The conjunctive row predicate the spec describes: for each attribute with
a non-empty selected set, the row's value must be a member; an empty set
imposes no constraint. -/
def rowPasses (sel : Selection) (r : Row) : Bool :=
  (sel.channel.isEmpty || cellIsin r.purchase_Channel sel.channel) &&
  (sel.category.isEmpty || cellIsin r.purchase_Category sel.category) &&
  (sel.gender.isEmpty || cellIsin r.gender sel.gender) &&
  (sel.income.isEmpty || cellIsin r.income_Level sel.income)

/-- The all-empty selection: no filter applied anywhere. -/
def emptySelection : Selection := ⟨[], [], [], []⟩

/-- Lexicographic strict comparison of char lists, written structurally so
that concrete instances evaluate by kernel reduction (the standard
`String.ltb` walks byte iterators and does not reduce). -/
def charsLt : List Char → List Char → Bool
  | [], [] => false
  | [], _ :: _ => true
  | _ :: _, [] => false
  | a :: as, b :: bs => if a < b then true else if b < a then false else charsLt as bs

/-- Executable `<` on strings, provably the standard lexicographic order
(`strLt_iff` below). -/
def strLt (a b : String) : Bool := charsLt a.data b.data

/-- Insert a string into an ascending duplicate-free list, keeping it
ascending and duplicate-free. -/
def insertKey (x : String) : List String → List String
  | [] => [x]
  | y :: ys => if strLt x y then x :: y :: ys else if x = y then y :: ys else y :: insertKey x ys

/-- The distinct values of a list, sorted ascending: the semantics shared by
`sorted(unique(...))` and by pandas' sorted groupby keys / sorted mode
values. -/
def sortedKeys (l : List String) : List String := l.foldr insertKey []

/-- The `sorted(series.dropna().unique())` of app.py `get_options` (lines 78-81):
the distinct non-null values of a column, ascending. -/
def get_options (t : List Row) (col : Row → Option String) : List String :=
  sortedKeys (t.filterMap col)

/-- The sidebar's default multiselect state (lines 88-110): every option of
each of the four filterable columns is pre-selected. -/
def defaultSelection (t : List Row) : Selection where
  channel := get_options t Row.purchase_Channel
  category := get_options t Row.purchase_Category
  gender := get_options t Row.gender
  income := get_options t Row.income_Level

/-- Index of the four filterable columns, to state facts uniformly. -/
inductive FilterCol where
  | channel | category | gender | income
deriving Repr, DecidableEq

def colOf : FilterCol → Row → Option String
  | .channel => Row.purchase_Channel
  | .category => Row.purchase_Category
  | .gender => Row.gender
  | .income => Row.income_Level

def selOf : FilterCol → Selection → List String
  | .channel => Selection.channel
  | .category => Selection.category
  | .gender => Selection.gender
  | .income => Selection.income

/-! ## MetricsAggregator (app.py lines 133-159) -/

/-- pandas `Series.sum()` with default `skipna=True`: null cells contribute
nothing, the empty sum is `0`. -/
def seriesSum (xs : List (Option Rat)) : Rat := (xs.filterMap id).sum

/-- pandas `Series.mean()` with default `skipna=True`: the mean of the
non-null cells, and NaN (modelled `none`) when there is none. -/
def seriesMean (xs : List (Option Rat)) : Option Rat :=
  let v := xs.filterMap id
  if v.length = 0 then none else some (v.sum / v.length)

/-- Line 133: `filtered_df["Purchase_Amount"].sum()` (the column-present arm;
the `else 0` arm fires only when the column is missing from the schema). -/
def total_revenue (t : List Row) : Rat := seriesSum (t.map Row.purchase_Amount)

/-- Line 134: `filtered_df["Purchase_Amount"].mean()` (column-present arm). -/
def avg_purchase (t : List Row) : Option Rat :=
  seriesMean (t.map Row.purchase_Amount)

/-- The summed amount of one `groupby("Purchase_Category")` group. -/
def catSum (t : List Row) (k : String) : Rat :=
  seriesSum ((t.filter (fun r => r.purchase_Category == some k)).map Row.purchase_Amount)

/-- The `groupby("Purchase_Category")["Purchase_Amount"].sum()` table: one pair per
distinct non-null category (pandas drops null group keys), keys ascending
(pandas sorts group keys). -/
def groupbySumCat (t : List Row) : List (String × Rat) :=
  (sortedKeys (t.filterMap Row.purchase_Category)).map (fun k => (k, catSum t k))

/-- Insertion step of `sortDesc`: `x` lands before the first element whose
amount is `≤` its own.  This is only ONE way to realize a descending sort;
see `sortValuesDescAdmissible` for the sort contract the source actually
guarantees. -/
def insertDesc (x : String × Rat) : List (String × Rat) → List (String × Rat)
  | [] => [x]
  | y :: ys => if y.2 ≤ x.2 then x :: y :: ys else y :: insertDesc x ys

/-- One concrete refinement of `.sort_values("Purchase_Amount",
ascending=False)` (an insertion sort), used only to give `category_rev` an
executable value for properties that are independent of the order of tied
rows (such as the C8 sum conservation, which is permutation-invariant).
The source's call uses pandas' default `kind='quicksort'`, which is
documented as NOT stable, so no particular tie order may be read off this
refinement; tie-order-sensitive reasoning must go through
`sortValuesDescAdmissible` instead. -/
def sortDesc : List (String × Rat) → List (String × Rat)
  | [] => []
  | x :: xs => insertDesc x (sortDesc xs)

/-- The DOCUMENTED contract of `.sort_values("Purchase_Amount",
ascending=False)` with the default `kind='quicksort'`: the result is some
permutation of the input that is weakly descending in the sort key; pandas
and numpy explicitly do not guarantee the relative order of tied rows for
quicksort.  Every admissible output of the source's sort step satisfies
this, and nothing stronger is promised. -/
def sortValuesDescAdmissible (input result : List (String × Rat)) : Prop :=
  result.Perm input ∧ result.Pairwise (fun a b => b.2 ≤ a.2)

/-- Lines 154-159: `category_rev`, the revenue-by-category table, with the
sort step refined by `sortDesc` (see its caveat on tie order). -/
def category_rev (t : List Row) : List (String × Rat) := sortDesc (groupbySumCat t)

/-- The set of outputs lines 154-159 may produce for table `t` under the
documented semantics of the sort step. -/
def category_rev_admissible (t : List Row) (result : List (String × Rat)) : Prop :=
  sortValuesDescAdmissible (groupbySumCat t) result

/-- The ordering the spec requires of `category_rev`: strictly descending by
summed amount, ties in ascending label order. -/
def revOrder (a b : String × Rat) : Prop :=
  b.2 < a.2 ∨ (a.2 = b.2 ∧ a.1 < b.1)

/-- Proof-side helper: does the row's purchase category lie in `keys`?
(Rows with a null category never qualify, mirroring how pandas groupby
drops null keys.) -/
def catIn (keys : List String) (r : Row) : Bool :=
  match r.purchase_Category with
  | some c => decide (c ∈ keys)
  | none => false

/-! ## SegmentMatcher (app.py lines 235-297) -/

/-- The three selectbox values the matcher keys on (`age_input`,
`income_input`, `channel_input`); `category_input` is never used as a match
key. -/
structure Profile where
  age : Int
  income : String
  channel : String
deriving Repr, DecidableEq

/-- Lines 236-240: the exact-match subset of the full unfiltered table. -/
def exactSegment (t : List Row) (p : Profile) : List Row :=
  t.filter (fun r =>
    r.age == some p.age && r.income_Level == some p.income &&
      r.purchase_Channel == some p.channel)

/-- Line 244: the income-only relaxed subset. -/
def relaxedSegment (t : List Row) (p : Profile) : List Row :=
  t.filter (fun r => r.income_Level == some p.income)

/-- Lines 236-244: the subset `user_segment` the statistics are computed
over, together with whether the "No exact match — showing closest matches
instead." warning was shown (the caller-visible relaxed-match signal).
The spec's states map as: `ExactMatch` ≙ `(exactSegment, false)`,
`RelaxedMatch` ≙ `(relaxedSegment, true)` with a non-empty segment; the
spec's `NoData` state has no counterpart in the code (see `getInsights`). -/
def user_segment (t : List Row) (p : Profile) : List Row × Bool :=
  let e := exactSegment t p
  if e.isEmpty then (relaxedSegment t p, true) else (e, false)

/-- The largest per-value multiplicity in a list (0 for the empty list). -/
def maxCount (xs : List String) : Nat :=
  ((sortedKeys xs).map (fun v => xs.count v)).foldr max 0

/-- pandas `Series.mode()`: the values of maximal multiplicity, sorted
ascending (dropna is applied by the caller). -/
def seriesModeList (xs : List String) : List String :=
  (sortedKeys xs).filter (fun v => xs.count v == maxCount xs)

/-- Pandas `series.mode()[0]`: the first entry of the sorted mode list; `none`
models the KeyError raised when the mode list is empty. -/
def modeZero (xs : List (Option String)) : Option String :=
  (seriesModeList (xs.filterMap id)).head?

/-- Line 247: `user_segment["Product_Category"].mode()[0]`. -/
def top_category (seg : List Row) : Option String :=
  modeZero (seg.map Row.product_Category)

/-- Modal value selected by the SPEC's words, not the code: "most frequent
product-category value (ties broken by first-encountered order in the
subset)" — the first value in subset order whose multiplicity is maximal. -/
def specModeFirstEncountered (xs : List String) : Option String :=
  xs.find? (fun v => xs.count v == maxCount xs)

/-- The four recommendation outcomes of lines 274-281. -/
inductive RecLabel where
  | highValueFrequent | premiumShopper | frequentShopper | valueSeeking
deriving Repr, DecidableEq

/-- Python `>` on two floats that may be NaN (`none`): any comparison
involving NaN is false. -/
def optGt (a b : Option Rat) : Bool :=
  match a, b with
  | some x, some y => decide (y < x)
  | _, _ => false

/-- Lines 274-281: the `rec` if/elif/elif/else chain. -/
def rec_rule (avg_spending overall_avg_spending avg_frequency overall_avg_frequency :
    Option Rat) : RecLabel :=
  if optGt avg_spending overall_avg_spending &&
      optGt avg_frequency overall_avg_frequency then .highValueFrequent
  else if optGt avg_spending overall_avg_spending then .premiumShopper
  else if optGt avg_frequency overall_avg_frequency then .frequentShopper
  else .valueSeeking

/-- The personalized report assembled in lines 246-294. -/
structure Report where
  relaxedWarning : Bool
  avg_spending : Option Rat
  top_cat : String
  avg_frequency : Option Rat
  recommendation : RecLabel
deriving Repr, DecidableEq

/-- Lines 235-297, the whole "Get My Insights" interaction: pick the
segment, compute its statistics, classify.  `none` models the uncaught
KeyError from `.mode()[0]` when the segment has no non-null product
category — in particular whenever both match subsets are empty: the code
has no `NoData` path, the interaction crashes. -/
def getInsights (t : List Row) (p : Profile) : Option Report :=
  match top_category (user_segment t p).1 with
  | none => none
  | some tc =>
    some { relaxedWarning := (user_segment t p).2
           avg_spending := seriesMean ((user_segment t p).1.map Row.purchase_Amount)
           top_cat := tc
           avg_frequency := seriesMean ((user_segment t p).1.map Row.purchase_Frequency)
           recommendation := rec_rule
             (seriesMean ((user_segment t p).1.map Row.purchase_Amount))
             (seriesMean (t.map Row.purchase_Amount))
             (seriesMean ((user_segment t p).1.map Row.purchase_Frequency))
             (seriesMean (t.map Row.purchase_Frequency)) }

/-! ## DataLoader currency normalization (app.py lines 62-67) -/

/-- A raw cell of the `Purchase_Amount` column before normalization: either
already numeric or a string. -/
inductive CellVal where
  | num (q : Rat)
  | str (s : String)
deriving Repr, DecidableEq

/-- The regex replace of line 65 on one cell: strings lose every dollar-sign
and comma character; non-string cells pass through untouched. -/
def replaceCell : CellVal → CellVal
  | .num q => .num q
  | .str s => .str ⟨s.data.filter (fun c => !(c == '$' || c == ','))⟩

/-- Parse a list of decimal digits. -/
def parseNatDigits (cs : List Char) : Option Nat :=
  if cs.isEmpty then none
  else cs.foldl (fun acc c =>
    acc.bind (fun n => if c.isDigit then some (10 * n + (c.toNat - 48)) else none))
    (some 0)

/-- The numeric grammar of Python `float(str)` restricted to plain decimals:
optional sign, digits with at most one dot, at least one digit (exponents,
inf/nan and surrounding whitespace are outside the modelled fragment). -/
def parseUnsignedChars (cs : List Char) : Option Rat :=
  match cs.splitOn '.' with
  | [w] => (parseNatDigits w).map (fun n => (n : Rat))
  | [w, f] =>
    if w.isEmpty && f.isEmpty then none
    else
      (if w.isEmpty then some 0 else parseNatDigits w).bind (fun wn =>
        (if f.isEmpty then some 0 else parseNatDigits f).map (fun fn =>
          (wn : Rat) + (fn : Rat) / ((10 : Rat) ^ f.length)))
  | _ => none

def parseFloatChars : List Char → Option Rat
  | '-' :: rest => (parseUnsignedChars rest).map (fun q => -q)
  | '+' :: rest => parseUnsignedChars rest
  | cs => parseUnsignedChars cs

/-- Python `float(cell)` applied to one cell: a float stays itself, a string must
parse; `none` models the ValueError. -/
def astypeFloatCell : CellVal → Option Rat
  | .num q => some q
  | .str s => parseFloatChars s.data

/-- Collect a list of optional results, failing as a whole if any entry
failed — the all-or-nothing behavior of `Series.astype(float)`. -/
def allSome : List (Option Rat) → Option (List Rat)
  | [] => some []
  | none :: _ => none
  | some x :: xs => (allSome xs).map (fun l => x :: l)

/-- Lines 62-67: the whole `Purchase_Amount` normalization.  `none` models
the uncaught ValueError: one malformed cell aborts the entire conversion
(and with it the load), there is no row-local error path. -/
def normalizeAmounts (col : List CellVal) : Option (List Rat) :=
  allSome (col.map (fun c => astypeFloatCell (replaceCell c)))

/-! ## Concrete tables for witnesses and counterexamples -/

/-- An all-null row to build concrete examples from. -/
def blankRow : Row := ⟨none, none, none, none, none, none, none, none⟩

def rowHigh : Row :=
  { blankRow with
    age := some 25
    income_Level := some "High"
    purchase_Channel := some "Online"
    product_Category := some "Books"
    purchase_Amount := some 40
    purchase_Frequency := some 2 }

def rowLowStore : Row :=
  { blankRow with
    age := some 40
    income_Level := some "Low"
    purchase_Channel := some "Store"
    product_Category := some "Toys"
    purchase_Amount := some 10
    purchase_Frequency := some 1 }

/-- Row whose product category is "B", for the mode tie example. -/
def rowTieB : Row :=
  { blankRow with
    age := some 30
    income_Level := some "Mid"
    purchase_Channel := some "Online"
    product_Category := some "B"
    purchase_Amount := some 20
    purchase_Frequency := some 3 }

/-- Row whose product category is "A", for the mode tie example. -/
def rowTieA : Row :=
  { rowTieB with product_Category := some "A" }

/-- Row with an amount but a null purchase category, breaking partition
conservation. -/
def rowNullCat : Row := { blankRow with purchase_Amount := some 5 }

/-- Row in purchase category "A" with amount 3, for the sort-tie example. -/
def rowCatA : Row :=
  { blankRow with purchase_Category := some "A", purchase_Amount := some 3 }

/-- Row in purchase category "B" with amount 3, for the sort-tie example. -/
def rowCatB : Row :=
  { blankRow with purchase_Category := some "B", purchase_Amount := some 3 }

/-- Table whose two categories "A" and "B" are tied at summed amount 3. -/
def exT5 : List Row := [rowCatA, rowCatB]

/-- A descending-sorted permutation of `groupbySumCat exT5` whose tied rows
are NOT in ascending label order — an output the documented sort contract
admits for `exT5`. -/
def badResult : List (String × Rat) := [("B", 3), ("A", 3)]

/-! ## Helper lemmas -/

theorem filtered_df_eq_filter (t : List Row) (sel : Selection) :
    filtered_df t sel = t.filter (rowPasses sel) := by
  unfold filtered_df rowPasses
  rcases sel with ⟨ch, ca, ge, inc⟩
  simp only
  by_cases hch : ch.isEmpty <;> by_cases hca : ca.isEmpty <;>
    by_cases hge : ge.isEmpty <;> by_cases hinc : inc.isEmpty <;>
    simp [hch, hca, hge, hinc, List.filter_filter, Bool.and_comm,
      Bool.and_assoc, Bool.and_left_comm]

theorem charsLt_iff (as bs : List Char) :
    charsLt as bs = true ↔ List.Lex (· < ·) as bs := by
  induction as generalizing bs with
  | nil =>
    cases bs with
    | nil =>
      simp only [charsLt]
      constructor
      · intro h
        exact absurd h (by simp)
      · intro h
        cases h
    | cons b bs =>
      simp only [charsLt]
      exact ⟨fun _ => List.Lex.nil, fun _ => trivial⟩
  | cons a as ih =>
    cases bs with
    | nil =>
      simp only [charsLt]
      constructor
      · intro h
        exact absurd h (by simp)
      · intro h
        cases h
    | cons b bs =>
      unfold charsLt
      by_cases hab : a < b
      · rw [if_pos hab]
        exact ⟨fun _ => List.Lex.rel hab, fun _ => rfl⟩
      · rw [if_neg hab]
        by_cases hba : b < a
        · rw [if_pos hba]
          constructor
          · intro h
            exact absurd h (by simp)
          · intro h
            cases h with
            | cons _ => exact absurd hba (lt_irrefl _)
            | rel h2 => exact absurd h2 hab
        · rw [if_neg hba]
          have hb : a = b := le_antisymm (le_of_not_lt hba) (le_of_not_lt hab)
          subst hb
          rw [ih bs]
          constructor
          · intro h
            exact List.Lex.cons h
          · intro h
            cases h with
            | cons h2 => exact h2
            | rel h2 => exact absurd h2 (lt_irrefl _)

theorem strLt_iff (a b : String) : strLt a b = true ↔ a < b := by
  rw [String.lt_iff_toList_lt]
  exact charsLt_iff a.data b.data

theorem mem_insertKey (a x : String) (l : List String) :
    a ∈ insertKey x l ↔ a = x ∨ a ∈ l := by
  induction l with
  | nil => simp [insertKey]
  | cons y ys ih =>
    unfold insertKey
    by_cases h1 : strLt x y = true
    · simp [h1]
    · by_cases h2 : x = y
      · subst h2
        rw [if_neg h1, if_pos rfl]
        simp only [List.mem_cons]
        tauto
      · rw [if_neg h1, if_neg h2]
        simp only [List.mem_cons, ih]
        tauto

theorem pairwise_insertKey (x : String) (l : List String)
    (hl : l.Pairwise (· < ·)) : (insertKey x l).Pairwise (· < ·) := by
  induction l with
  | nil => simp [insertKey]
  | cons y ys ih =>
    rw [List.pairwise_cons] at hl
    obtain ⟨hy, hys⟩ := hl
    unfold insertKey
    by_cases h1 : strLt x y = true
    · rw [if_pos h1]
      have hxy : x < y := (strLt_iff x y).mp h1
      refine List.pairwise_cons.mpr ⟨?_, List.pairwise_cons.mpr ⟨hy, hys⟩⟩
      intro b hb
      rcases List.mem_cons.mp hb with rfl | hb
      · exact hxy
      · exact lt_trans hxy (hy b hb)
    · have hnlt : ¬x < y := fun hc => h1 ((strLt_iff x y).mpr hc)
      by_cases h2 : x = y
      · rw [if_neg h1, if_pos h2]
        exact List.pairwise_cons.mpr ⟨hy, hys⟩
      · have hyx : y < x := lt_of_le_of_ne (le_of_not_lt hnlt) (Ne.symm h2)
        rw [if_neg h1, if_neg h2]
        refine List.pairwise_cons.mpr ⟨?_, ih hys⟩
        intro b hb
        rcases (mem_insertKey b x ys).mp hb with rfl | hb
        · exact hyx
        · exact hy b hb

theorem sortedKeys_pairwise (l : List String) :
    (sortedKeys l).Pairwise (· < ·) := by
  induction l with
  | nil => simp [sortedKeys]
  | cons x xs ih => exact pairwise_insertKey x _ ih

theorem mem_sortedKeys (a : String) (l : List String) :
    a ∈ sortedKeys l ↔ a ∈ l := by
  induction l with
  | nil => simp [sortedKeys]
  | cons x xs ih =>
    show a ∈ insertKey x (sortedKeys xs) ↔ _
    rw [mem_insertKey, ih]
    simp

theorem sortedKeys_nodup (l : List String) : (sortedKeys l).Nodup :=
  (sortedKeys_pairwise l).imp ne_of_lt

theorem sortedKeys_ne_nil (l : List String) (h : l ≠ []) :
    sortedKeys l ≠ [] := by
  obtain ⟨a, ha⟩ := List.exists_mem_of_ne_nil l h
  exact List.ne_nil_of_mem ((mem_sortedKeys a l).mpr ha)

/-! ## Claim theorems: FilterEngine -/

/-- C3: `filtered_df` retains exactly the rows that pass every non-empty
attribute filter (conjunctively), empty selected sets impose no constraint,
and the all-empty selection returns the table's rows unchanged. -/
theorem claim_C3 (t : List Row) (sel : Selection) :
    filtered_df t sel = t.filter (rowPasses sel) ∧
    filtered_df t emptySelection = t := by
  refine ⟨filtered_df_eq_filter t sel, ?_⟩
  rw [filtered_df_eq_filter]
  simp [rowPasses, emptySelection]

/-! ## Claim theorems: MetricsAggregator scalars -/

/-- C4 counterexample: on the empty table (amount column present) the code's
`filtered_df["Purchase_Amount"].mean()` is NaN (`none`), not the claimed 0:
pandas' mean of an empty column is NaN and the `else 0` arm of line 134
fires only when the column is absent from the schema. -/
theorem claim_C4_counterexample : avg_purchase ([] : List Row) ≠ some 0 := by
  decide

/-- C4 amended: on a table with no non-null purchase amounts (in particular
the empty table) `avg_purchase` is NaN (`none`), not 0; the computation is
total, so no division-by-zero fault is raised. -/
theorem claim_C4_amended (t : List Row)
    (h : t.filterMap Row.purchase_Amount = []) : avg_purchase t = none := by
  unfold avg_purchase seriesMean
  have h2 : List.filterMap id (t.map Row.purchase_Amount) = [] := by
    rw [List.filterMap_map]
    simpa using h
  simp [h2]

theorem claim_C4_amended_witness :
    ([] : List Row).filterMap Row.purchase_Amount = [] ∧
      avg_purchase ([] : List Row) = none :=
  ⟨rfl, claim_C4_amended [] rfl⟩

/-! ## Claim theorems: SegmentMatcher -/

/-- C1: when the exact-match subset is empty and the income-only subset is
not, the matcher lands in the RelaxedMatch state: the segment used is the
income-only subset, the relaxed-match warning is shown to the caller, and
any report the interaction produces carries that warning and statistics
computed over the income-only subset. -/
theorem claim_C1 (t : List Row) (p : Profile)
    (hex : exactSegment t p = []) (_hrel : relaxedSegment t p ≠ []) :
    user_segment t p = (relaxedSegment t p, true) ∧
    ∀ rep : Report, getInsights t p = some rep →
      rep.relaxedWarning = true ∧
      rep.avg_spending = seriesMean ((relaxedSegment t p).map Row.purchase_Amount) ∧
      rep.avg_frequency = seriesMean ((relaxedSegment t p).map Row.purchase_Frequency) := by
  have hus : user_segment t p = (relaxedSegment t p, true) := by
    unfold user_segment
    simp [hex]
  refine ⟨hus, ?_⟩
  intro rep hrep
  have h1 : (user_segment t p).1 = relaxedSegment t p := by rw [hus]
  have h2 : (user_segment t p).2 = true := by rw [hus]
  unfold getInsights at hrep
  rw [h1, h2] at hrep
  rcases htc : top_category (relaxedSegment t p) with _ | tc
  · rw [htc] at hrep
    exact absurd hrep (by simp)
  · rw [htc] at hrep
    simp only [Option.some.injEq] at hrep
    subst hrep
    exact ⟨rfl, rfl, rfl⟩

theorem claim_C1_witness :
    exactSegment [rowHigh] ⟨99, "High", "Store"⟩ = [] ∧
    relaxedSegment [rowHigh] ⟨99, "High", "Store"⟩ ≠ [] ∧
    user_segment [rowHigh] ⟨99, "High", "Store"⟩ =
      (relaxedSegment [rowHigh] ⟨99, "High", "Store"⟩, true) :=
  ⟨by decide, by decide, (claim_C1 _ _ (by decide) (by decide)).1⟩

/-- C2 (recording the code bug): on a profile whose exact and income-only
subsets are both empty, the code does NOT reach a graceful NoData outcome:
the segment mean is NaN (`none`) and `user_segment["Product_Category"]
.mode()[0]` raises on the empty subset, crashing the interaction
(`getInsights = none`); no "insufficient data" message path exists in
lines 235-297. -/
theorem claim_C2 :
    exactSegment [rowHigh] ⟨30, "Low", "Online"⟩ = [] ∧
    relaxedSegment [rowHigh] ⟨30, "Low", "Online"⟩ = [] ∧
    seriesMean ((user_segment [rowHigh] ⟨30, "Low", "Online"⟩).1.map
      Row.purchase_Amount) = none ∧
    getInsights [rowHigh] ⟨30, "Low", "Online"⟩ = none := by
  decide

/-- C7: the recommendation rule of lines 274-281 realizes exactly the four
mutually exclusive categories in precedence order: both-exceed wins first,
then amount-only, then frequency-only, then the value-seeking default. -/
theorem claim_C7 (a ga f gf : Rat) :
    (rec_rule (some a) (some ga) (some f) (some gf) = .highValueFrequent ↔
      (ga < a ∧ gf < f)) ∧
    (rec_rule (some a) (some ga) (some f) (some gf) = .premiumShopper ↔
      (ga < a ∧ ¬ gf < f)) ∧
    (rec_rule (some a) (some ga) (some f) (some gf) = .frequentShopper ↔
      (¬ ga < a ∧ gf < f)) ∧
    (rec_rule (some a) (some ga) (some f) (some gf) = .valueSeeking ↔
      (¬ ga < a ∧ ¬ gf < f)) := by
  by_cases h1 : ga < a <;> by_cases h2 : gf < f <;>
    simp [rec_rule, optGt, h1, h2]

/-! ## Claim theorems: DataLoader normalization -/

theorem allSome_eq_none_of_mem (l : List (Option Rat)) (h : none ∈ l) :
    allSome l = none := by
  induction l with
  | nil => simp at h
  | cons x xs ih =>
    rcases List.mem_cons.mp h with rfl | hx
    · rfl
    · cases x with
      | none => rfl
      | some v => simp [allSome, ih hx]

/-- C9 counterexample: one malformed cell ("abc" cannot be parsed after
stripping) makes the whole `astype(float)` conversion raise: the entire
normalization fails (`none`), instead of the claimed row-local
MalformedAmount handling that lets the rest of the load succeed. -/
theorem claim_C9_counterexample :
    normalizeAmounts [CellVal.str "$1,000.50", CellVal.str "abc"] = none := by
  decide

/-- C9 amended: normalization is a no-op on already-numeric cells, but a
cell that cannot be parsed after stripping aborts the ENTIRE conversion
(fatal ValueError) — no row is excluded or nulled, and no value is coerced
to 0, because no value is produced at all. -/
theorem claim_C9_amended :
    (∀ qs : List Rat, normalizeAmounts (qs.map CellVal.num) = some qs) ∧
    (∀ (col : List CellVal) (c : CellVal), c ∈ col →
      astypeFloatCell (replaceCell c) = none → normalizeAmounts col = none) := by
  constructor
  · intro qs
    induction qs with
    | nil => rfl
    | cons q qs ih =>
      unfold normalizeAmounts at ih ⊢
      simp only [List.map_cons]
      change (allSome ((qs.map CellVal.num).map
        (fun c => astypeFloatCell (replaceCell c)))).map (fun l => q :: l) =
        some (q :: qs)
      rw [ih]
      rfl
  · intro col c hc h
    apply allSome_eq_none_of_mem
    exact List.mem_map.mpr ⟨c, hc, h⟩

theorem claim_C9_amended_witness :
    normalizeAmounts ([3, 5].map CellVal.num) = some [3, 5] ∧
    CellVal.str "abc" ∈ [CellVal.num 1, CellVal.str "abc"] ∧
    astypeFloatCell (replaceCell (CellVal.str "abc")) = none ∧
    normalizeAmounts [CellVal.num 1, CellVal.str "abc"] = none :=
  ⟨claim_C9_amended.1 [3, 5], by decide, by decide,
    claim_C9_amended.2 [CellVal.num 1, CellVal.str "abc"] (CellVal.str "abc")
      (by decide) (by decide)⟩

/-! ## Mode (`.mode()[0]`) lemmas, claim C6 -/

theorem le_foldr_max (l : List Nat) (x : Nat) (hx : x ∈ l) :
    x ≤ l.foldr max 0 := by
  induction l with
  | nil => simp at hx
  | cons y ys ih =>
    rcases List.mem_cons.mp hx with rfl | hx
    · exact le_max_left _ _
    · exact le_trans (ih hx) (le_max_right _ _)

theorem foldr_max_attained (l : List Nat) (h : l ≠ []) :
    l.foldr max 0 ∈ l := by
  induction l with
  | nil => exact absurd rfl h
  | cons y ys ih =>
    cases ys with
    | nil => simp
    | cons z zs =>
      rcases le_total ((z :: zs).foldr max 0) y with hle | hle
      · have he : (y :: z :: zs).foldr max 0 = y := by
          show max y ((z :: zs).foldr max 0) = y
          exact max_eq_left hle
        rw [he]
        exact List.mem_cons_self _ _
      · have he : (y :: z :: zs).foldr max 0 = (z :: zs).foldr max 0 := by
          show max y ((z :: zs).foldr max 0) = _
          exact max_eq_right hle
        rw [he]
        exact List.mem_cons_of_mem _ (ih (by simp))

theorem maxCount_attained (xs : List String) (h : xs ≠ []) :
    ∃ v ∈ sortedKeys xs, xs.count v = maxCount xs := by
  have hs : sortedKeys xs ≠ [] := sortedKeys_ne_nil xs h
  have hmap : ((sortedKeys xs).map (fun v => xs.count v)) ≠ [] := by
    simpa using hs
  have hmem := foldr_max_attained _ hmap
  obtain ⟨v, hv, hveq⟩ := List.mem_map.mp hmem
  exact ⟨v, hv, hveq⟩

theorem count_le_maxCount (xs : List String) (v : String) (hv : v ∈ xs) :
    xs.count v ≤ maxCount xs :=
  le_foldr_max _ _ (List.mem_map.mpr ⟨v, (mem_sortedKeys v xs).mpr hv, rfl⟩)

theorem modeList_spec (xs : List String) (h : xs ≠ []) :
    ∃ m, (seriesModeList xs).head? = some m ∧ m ∈ xs ∧
      xs.count m = maxCount xs ∧
      (∀ v ∈ xs, xs.count v ≤ xs.count m) ∧
      (∀ v ∈ xs, xs.count v = maxCount xs → m ≤ v) := by
  obtain ⟨w, hw, hweq⟩ := maxCount_attained xs h
  have hwmode : w ∈ seriesModeList xs :=
    List.mem_filter.mpr ⟨hw, by simp [hweq]⟩
  have hne : seriesModeList xs ≠ [] := List.ne_nil_of_mem hwmode
  have hpw : (seriesModeList xs).Pairwise (· < ·) :=
    (sortedKeys_pairwise xs).filter _
  rcases hml : seriesModeList xs with _ | ⟨m, rest⟩
  · exact absurd hml hne
  · have hmmode : m ∈ seriesModeList xs := by
      rw [hml]
      exact List.mem_cons_self _ _
    have hmkeys : m ∈ sortedKeys xs := (List.mem_filter.mp hmmode).1
    have hmcount : xs.count m = maxCount xs := by
      have := (List.mem_filter.mp hmmode).2
      simpa using this
    refine ⟨m, rfl, (mem_sortedKeys m xs).mp hmkeys, hmcount, ?_, ?_⟩
    · intro v hv
      rw [hmcount]
      exact count_le_maxCount xs v hv
    · intro v hv hveq
      have hvmode : v ∈ seriesModeList xs :=
        List.mem_filter.mpr ⟨(mem_sortedKeys v xs).mpr hv, by simp [hveq]⟩
      rw [hml] at hvmode hpw
      rcases List.mem_cons.mp hvmode with rfl | hvrest
      · exact le_refl _
      · exact le_of_lt ((List.pairwise_cons.mp hpw).1 v hvrest)

theorem top_category_eq (seg : List Row) :
    top_category seg =
      (seriesModeList (seg.filterMap Row.product_Category)).head? := by
  unfold top_category modeZero
  rw [List.filterMap_map]
  rfl

/-- C6 counterexample: a matched subset whose product categories are, in
row order, "B" then "A" (each appearing once, so tied for most frequent).
The spec's first-encountered rule picks "B", but the code's `.mode()[0]`
returns the SMALLEST tied value "A", because pandas sorts the mode values
ascending before `[0]` is taken. -/
theorem claim_C6_counterexample :
    (getInsights [rowTieB, rowTieA] ⟨30, "Mid", "Online"⟩).map Report.top_cat =
      some "A" ∧
    specModeFirstEncountered
      ((user_segment [rowTieB, rowTieA] ⟨30, "Mid", "Online"⟩).1.filterMap
        Row.product_Category) = some "B" ∧
    ("A" : String) ≠ "B" := by
  refine ⟨by decide, by decide, by decide⟩

/-- C6 amended: on a matched subset with at least one non-null product
category, `top_category` returns a most-frequent value, with ties broken by
ascending value order (the smallest tied value), not by first-encountered
subset order. -/
theorem claim_C6_amended (seg : List Row)
    (h : seg.filterMap Row.product_Category ≠ []) :
    ∃ m, top_category seg = some m ∧
      m ∈ seg.filterMap Row.product_Category ∧
      (seg.filterMap Row.product_Category).count m =
        maxCount (seg.filterMap Row.product_Category) ∧
      (∀ v ∈ seg.filterMap Row.product_Category,
        (seg.filterMap Row.product_Category).count v ≤
          (seg.filterMap Row.product_Category).count m) ∧
      (∀ v ∈ seg.filterMap Row.product_Category,
        (seg.filterMap Row.product_Category).count v =
          maxCount (seg.filterMap Row.product_Category) → m ≤ v) := by
  rw [top_category_eq]
  exact modeList_spec _ h

theorem claim_C6_amended_witness :
    ([rowTieB, rowTieA].filterMap Row.product_Category ≠ []) ∧
    (∃ m, top_category [rowTieB, rowTieA] = some m ∧
      m ∈ [rowTieB, rowTieA].filterMap Row.product_Category ∧
      ([rowTieB, rowTieA].filterMap Row.product_Category).count m =
        maxCount ([rowTieB, rowTieA].filterMap Row.product_Category) ∧
      (∀ v ∈ [rowTieB, rowTieA].filterMap Row.product_Category,
        ([rowTieB, rowTieA].filterMap Row.product_Category).count v ≤
          ([rowTieB, rowTieA].filterMap Row.product_Category).count m) ∧
      (∀ v ∈ [rowTieB, rowTieA].filterMap Row.product_Category,
        ([rowTieB, rowTieA].filterMap Row.product_Category).count v =
          maxCount ([rowTieB, rowTieA].filterMap Row.product_Category) →
            m ≤ v)) :=
  ⟨by decide, claim_C6_amended [rowTieB, rowTieA] (by decide)⟩

/-! ## Revenue-by-category ordering, claim C5 -/

theorem insertDesc_perm (x : String × Rat) (l : List (String × Rat)) :
    (insertDesc x l).Perm (x :: l) := by
  induction l with
  | nil => exact List.Perm.refl _
  | cons y ys ih =>
    unfold insertDesc
    by_cases h : y.2 ≤ x.2
    · rw [if_pos h]
    · rw [if_neg h]
      exact (ih.cons y).trans (List.Perm.swap x y ys)

theorem sortDesc_perm (l : List (String × Rat)) : (sortDesc l).Perm l := by
  induction l with
  | nil => exact List.Perm.refl _
  | cons x xs ih => exact (insertDesc_perm x (sortDesc xs)).trans (ih.cons x)

theorem groupbySumCat_fst (t : List Row) :
    (groupbySumCat t).map Prod.fst =
      sortedKeys (t.filterMap Row.purchase_Category) := by
  unfold groupbySumCat
  rw [List.map_map]
  have hcomp : (Prod.fst ∘ fun k => (k, catSum t k)) = id := rfl
  rw [hcomp, List.map_id]

theorem badResult_admissible : category_rev_admissible exT5 badResult := by
  have hg : groupbySumCat exT5 = [("A", (3 : Rat)), ("B", (3 : Rat))] := by
    have h0 : groupbySumCat exT5 =
        [("A", (3 : Rat) + 0), ("B", (3 : Rat) + 0)] := rfl
    rw [h0]
    norm_num
  refine ⟨?_, ?_⟩
  · rw [hg]
    exact List.Perm.swap ("A", 3) ("B", 3) []
  · simp [badResult, List.pairwise_cons]

/-- C5 counterexample: table with categories "A" and "B" tied at summed
amount 3.  `badResult`, which lists "B" before "A", is an output the
documented contract of `.sort_values(ascending=False, kind='quicksort')`
admits (a weakly descending permutation of the groupby table — pandas does
not pin the order of tied rows), yet its tied rows are not in ascending
label order: the claim's ascending-label tie-break is not a property of the
program. -/
theorem claim_C5_counterexample :
    category_rev_admissible exT5 badResult ∧
      ¬ badResult.Pairwise revOrder := by
  refine ⟨badResult_admissible, ?_⟩
  intro hp
  have h2 : List.Pairwise revOrder [("B", (3 : Rat)), ("A", (3 : Rat))] := hp
  have h3 := (List.pairwise_cons.mp h2).1 ("A", 3) (List.mem_cons_self _ _)
  rcases h3 with hlt | ⟨_, hba⟩
  · exact absurd hlt (lt_irrefl _)
  · have hb := (strLt_iff "B" "A").mpr hba
    exact absurd hb (by decide)

/-- C5 amended: every output the documented sort contract admits for
lines 154-159 has one row per distinct (non-null) category present in the
table, carries the correct summed amount per category, and is weakly
descending in the summed amount; the relative order of categories with
equal sums is NOT guaranteed (pandas' default quicksort is unstable), so
no deterministic tie order — in particular not ascending label order —
can be asserted. -/
theorem claim_C5_amended (t : List Row) (result : List (String × Rat))
    (h : category_rev_admissible t result) :
    result.Pairwise (fun a b => b.2 ≤ a.2) ∧
    (result.map Prod.fst).Nodup ∧
    (∀ k : String, k ∈ result.map Prod.fst ↔
      k ∈ t.filterMap Row.purchase_Category) ∧
    result.all (fun p => p.2 == catSum t p.1) = true := by
  have h2 : result.Perm (groupbySumCat t) ∧
      result.Pairwise (fun a b => b.2 ≤ a.2) := h
  obtain ⟨hperm, hsorted⟩ := h2
  have hpermf : (result.map Prod.fst).Perm
      ((groupbySumCat t).map Prod.fst) := hperm.map _
  refine ⟨hsorted, ?_, ?_, ?_⟩
  · apply hpermf.nodup_iff.mpr
    rw [groupbySumCat_fst]
    exact sortedKeys_nodup _
  · intro k
    rw [hpermf.mem_iff, groupbySumCat_fst, mem_sortedKeys]
  · rw [List.all_eq_true]
    intro p hp
    have hp2 : p ∈ groupbySumCat t := hperm.subset hp
    unfold groupbySumCat at hp2
    obtain ⟨k, _, rfl⟩ := List.mem_map.mp hp2
    simp

theorem claim_C5_amended_witness :
    category_rev_admissible exT5 badResult ∧
    (badResult.Pairwise (fun a b => b.2 ≤ a.2) ∧
    (badResult.map Prod.fst).Nodup ∧
    (∀ k : String, k ∈ badResult.map Prod.fst ↔
      k ∈ exT5.filterMap Row.purchase_Category) ∧
    badResult.all (fun p => p.2 == catSum exT5 p.1) = true) :=
  ⟨badResult_admissible, claim_C5_amended exT5 badResult badResult_admissible⟩

/-! ## Aggregation conservation, claim C8 -/

theorem seriesSum_cons (x : Option Rat) (xs : List (Option Rat)) :
    seriesSum (x :: xs) = x.getD 0 + seriesSum xs := by
  cases x with
  | none => simp [seriesSum, List.filterMap_cons]
  | some v => simp [seriesSum, List.filterMap_cons]

theorem total_revenue_cons (r : Row) (t : List Row) :
    total_revenue (r :: t) = r.purchase_Amount.getD 0 + total_revenue t := by
  unfold total_revenue
  rw [List.map_cons]
  exact seriesSum_cons _ _

theorem catSum_eq (t : List Row) (k : String) :
    catSum t k =
      total_revenue (t.filter (fun r => r.purchase_Category == some k)) := rfl

theorem catIn_nil (r : Row) : catIn [] r = false := by
  cases h : r.purchase_Category <;> simp [catIn, h]

theorem filter_catIn_nil (t : List Row) : t.filter (catIn []) = [] := by
  induction t with
  | nil => rfl
  | cons r t ih => rw [List.filter_cons, catIn_nil, if_neg (by simp), ih]

theorem revenue_split (t : List Row) (k : String) (keys : List String)
    (hk : k ∉ keys) :
    total_revenue (t.filter (catIn (k :: keys))) =
      catSum t k + total_revenue (t.filter (catIn keys)) := by
  induction t with
  | nil => simp [total_revenue, seriesSum, catSum]
  | cons r t ih =>
    rw [catSum_eq] at ih ⊢
    rcases hrc : r.purchase_Category with _ | c
    · have h1 : catIn (k :: keys) r = false := by simp [catIn, hrc]
      have h2 : catIn keys r = false := by simp [catIn, hrc]
      have h3 : (r.purchase_Category == some k) = false := by simp [hrc]
      have hn1 : ¬ catIn (k :: keys) r = true := by simp [h1]
      have hn2 : ¬ catIn keys r = true := by simp [h2]
      have hn3 : ¬ (r.purchase_Category == some k) = true := by simp [h3]
      rw [List.filter_cons_of_neg hn1, List.filter_cons_of_neg hn2,
        @List.filter_cons_of_neg _ (fun r => r.purchase_Category == some k) r t hn3]
      exact ih
    · by_cases hck : c = k
      · subst hck
        have h1 : catIn (c :: keys) r = true := by simp [catIn, hrc]
        have h2 : catIn keys r = false := by simp [catIn, hrc, hk]
        have h3 : (r.purchase_Category == some c) = true := by simp [hrc]
        have hn2 : ¬ catIn keys r = true := by simp [h2]
        rw [List.filter_cons_of_pos h1, List.filter_cons_of_neg hn2,
          @List.filter_cons_of_pos _ (fun r => r.purchase_Category == some c) r t h3,
          total_revenue_cons, total_revenue_cons, ih]
        ring
      · have h3 : (r.purchase_Category == some k) = false := by simp [hrc, hck]
        by_cases hmem : c ∈ keys
        · have h1 : catIn (k :: keys) r = true := by
            simp [catIn, hrc, List.mem_cons, hmem]
          have h2 : catIn keys r = true := by simp [catIn, hrc, hmem]
          have hn3 : ¬ (r.purchase_Category == some k) = true := by simp [h3]
          rw [List.filter_cons_of_pos h1, @List.filter_cons_of_neg _ (fun r => r.purchase_Category == some k) r t hn3,
            List.filter_cons_of_pos h2,
            total_revenue_cons, total_revenue_cons, ih]
          ring
        · have h1 : catIn (k :: keys) r = false := by
            simp [catIn, hrc, List.mem_cons, hck, hmem]
          have h2 : catIn keys r = false := by simp [catIn, hrc, hmem]
          have hn1 : ¬ catIn (k :: keys) r = true := by simp [h1]
          have hn2 : ¬ catIn keys r = true := by simp [h2]
          have hn3 : ¬ (r.purchase_Category == some k) = true := by simp [h3]
          rw [List.filter_cons_of_neg hn1, List.filter_cons_of_neg hn2,
            @List.filter_cons_of_neg _ (fun r => r.purchase_Category == some k) r t hn3]
          exact ih

theorem revenue_partition (t : List Row) (keys : List String)
    (hnd : keys.Nodup) :
    (keys.map (catSum t)).sum = total_revenue (t.filter (catIn keys)) := by
  induction keys with
  | nil => simp [filter_catIn_nil, total_revenue, seriesSum]
  | cons k ks ih =>
    rw [List.map_cons, List.sum_cons, ih (List.Nodup.of_cons hnd),
      revenue_split t k ks (List.nodup_cons.mp hnd).1]

theorem filter_catIn_present (t : List Row) :
    t.filter (catIn (sortedKeys (t.filterMap Row.purchase_Category))) =
      t.filter (fun r => r.purchase_Category.isSome) := by
  apply List.filter_congr
  intro r hr
  rcases hrc : r.purchase_Category with _ | c
  · simp [catIn, hrc]
  · have hc : c ∈ t.filterMap Row.purchase_Category :=
      List.mem_filterMap.mpr ⟨r, hr, hrc⟩
    simp [catIn, hrc, (mem_sortedKeys c _).mpr hc]

/-- C8 counterexample: a single row with a 5-unit amount but a NULL purchase
category.  `groupby` drops the null key, so `category_rev` is empty and its
values sum to 0, while `total_revenue` is 5: the partition sums do NOT add
up to the whole when a category value is missing. -/
theorem claim_C8_counterexample :
    ((category_rev [rowNullCat]).map Prod.snd).sum ≠
      total_revenue [rowNullCat] := by
  have h1 : category_rev [rowNullCat] = [] := rfl
  have h2 : total_revenue [rowNullCat] = 5 := by
    simp [total_revenue, seriesSum, rowNullCat, blankRow]
  rw [h1, h2]
  norm_num

/-- C8 amended: the per-category sums of `category_rev` add up to the total
revenue of the rows that HAVE a (non-null) category — equivalently,
conservation against `total_revenue` of the whole table holds exactly when
no amount-bearing row has a missing category. -/
theorem claim_C8_amended (t : List Row) :
    ((category_rev t).map Prod.snd).sum =
      total_revenue (t.filter (fun r => r.purchase_Category.isSome)) := by
  have hperm : ((category_rev t).map Prod.snd).Perm
      ((groupbySumCat t).map Prod.snd) := (sortDesc_perm _).map _
  rw [hperm.sum_eq]
  unfold groupbySumCat
  rw [List.map_map]
  have hcomp : (Prod.snd ∘ fun k => (k, catSum t k)) = catSum t := rfl
  rw [hcomp, revenue_partition t _ (sortedKeys_nodup _), filter_catIn_present]

/-! ## Default-selection null exclusion, claim C10 -/

theorem selOf_default (c : FilterCol) (t : List Row) :
    selOf c (defaultSelection t) = get_options t (colOf c) := by
  cases c <;> rfl

/-- C10: the default sidebar state pre-selects every distinct non-null value
of each filterable column; a column that has any non-null value therefore
gets a non-empty selection, and a row holding a null in such a column fails
that column's `isin` filter — so under the defaults the filtered table
omits that row and does not reproduce the original table. -/
theorem claim_C10 (t : List Row) (r : Row) (c : FilterCol)
    (hr : r ∈ t) (hnull : colOf c r = none)
    (hex : ∃ r2, r2 ∈ t ∧ (colOf c r2).isSome = true) :
    r ∉ filtered_df t (defaultSelection t) ∧
      filtered_df t (defaultSelection t) ≠ t := by
  obtain ⟨r2, hr2, hsome⟩ := hex
  rcases hv : colOf c r2 with _ | v
  · rw [hv] at hsome
    simp at hsome
  have hvmem : v ∈ t.filterMap (colOf c) := List.mem_filterMap.mpr ⟨r2, hr2, hv⟩
  have hopts : get_options t (colOf c) ≠ [] := by
    unfold get_options
    exact List.ne_nil_of_mem ((mem_sortedKeys v _).mpr hvmem)
  have hopts2 : sortedKeys (t.filterMap (colOf c)) ≠ [] := by
    unfold get_options at hopts
    exact hopts
  have hfail : rowPasses (defaultSelection t) r = false := by
    cases c <;>
      simp only [colOf] at hnull hopts2 <;>
      simp [rowPasses, defaultSelection, get_options, cellIsin, hnull, hopts2]
  have hnot : r ∉ filtered_df t (defaultSelection t) := by
    rw [filtered_df_eq_filter]
    intro hmem
    have hp := (List.mem_filter.mp hmem).2
    rw [hfail] at hp
    exact absurd hp (by simp)
  refine ⟨hnot, ?_⟩
  intro heq
  apply hnot
  rw [heq]
  exact hr

theorem claim_C10_witness :
    rowNullCat ∈ [rowNullCat, rowHigh] ∧
    colOf FilterCol.channel rowNullCat = none ∧
    rowNullCat ∉
      filtered_df [rowNullCat, rowHigh]
        (defaultSelection [rowNullCat, rowHigh]) ∧
    filtered_df [rowNullCat, rowHigh] (defaultSelection [rowNullCat, rowHigh])
      ≠ [rowNullCat, rowHigh] := by
  have h := claim_C10 [rowNullCat, rowHigh] rowNullCat FilterCol.channel
    (by decide) (by decide) ⟨rowHigh, by decide, by decide⟩
  exact ⟨by decide, by decide, h.1, h.2⟩

end Dashboard
